import Mathlib

/-!
Verification development for the smartgrid repository.

The repository's optimization core (`gridoptimization.py`, `app.py`) is not
part of this corpus slice; only its documented behavior is.  Definitions for
that core are therefore modelled from the specification text, and are marked
as such in their doc comments.  The frontend JavaScript services
(`faultPredictionService.js`, `anomalyDetectionService.js`,
`gridOptimizationService.js`) are present and are embedded directly from
their source.

All machine reals are embedded as exact rationals.
-/

namespace SmartGrid

/-- Modelled from the spec: an edge of the topology store, an undirected
connection between two node ids carrying a resistance and a risk score
(telemetry fields not used by the claims are omitted). -/
structure Edge where
  a : Nat
  b : Nat
  resistance : ℚ
  risk : ℚ
deriving DecidableEq, Repr

/-- Modelled from the spec: out-of-range risk is clamped to the interval
[0,1] before use by the cost function. -/
def clamp01 (x : ℚ) : ℚ := min 1 (max 0 x)

/-- Modelled from the spec: the cost function,
`weight(edge, riskWeight) = edge.resistance + riskWeight × edge.risk`,
with the risk clamped into [0,1] first (`gridoptimization.py` is absent from
the corpus; the formula is documented as
`cost = resistance + (risk_weight × probability)`). -/
def weight (e : Edge) (riskWeight : ℚ) : ℚ :=
  e.resistance + riskWeight * clamp01 e.risk

theorem clamp01_nonneg (x : ℚ) : 0 ≤ clamp01 x := by
  unfold clamp01
  have h0 : (0 : ℚ) ≤ max 0 x := le_max_left 0 x
  exact le_min (by norm_num) h0

theorem clamp01_le_one (x : ℚ) : clamp01 x ≤ 1 := min_le_left 1 (max 0 x)

/-- C1: for every edge with non-negative resistance and any risk score, and
every risk weight, the cost function returns exactly
resistance + riskWeight × clamp(risk, 0, 1) — the risk is clamped into
[0,1] before use — and for a (non-negative) sensitivity weight the result
is never negative. -/
theorem C1_cost_function_clamped_nonneg (a b : Nat) (r p w : ℚ)
    (hr : 0 ≤ r) :
    weight ⟨a, b, r, p⟩ w = r + w * clamp01 p ∧
      (0 ≤ w → 0 ≤ weight ⟨a, b, r, p⟩ w) := by
  constructor
  · rfl
  · intro hw
    have h1 : 0 ≤ w * clamp01 p := mul_nonneg hw (clamp01_nonneg p)
    unfold weight
    simp only
    linarith

/-- Concrete instantiation of C1: resistance 1/500, out-of-range risk 3/2
(clamped to 1), risk weight 10. -/
theorem C1_cost_function_clamped_nonneg_witness :
    weight ⟨0, 1, 1/500, 3/2⟩ 10 = 1/500 + 10 * clamp01 (3/2) ∧
      ((0:ℚ) ≤ 10 → 0 ≤ weight ⟨0, 1, 1/500, 3/2⟩ 10) :=
  C1_cost_function_clamped_nonneg 0 1 (1/500) (3/2) 10 (by norm_num)

/-- Modelled from the spec: lookup of the undirected edge joining two node
ids in the topology store. -/
def findEdge (g : List Edge) (u v : Nat) : Option Edge :=
  g.find? (fun e => (e.a == u && e.b == v) || (e.a == v && e.b == u))

/-- Modelled from the spec: the edges traversed by a path, one per
consecutive pair of node ids. -/
def pathEdges (g : List Edge) : List Nat → List Edge
  | u :: v :: rest => (findEdge g u v).toList ++ pathEdges g (v :: rest)
  | _ => []

/-- Modelled from the spec: cumulative resistance of a path (the quantity
the derived loss is based on). -/
def pathResistance (g : List Edge) (p : List Nat) : ℚ :=
  ((pathEdges g p).map (fun e => e.resistance)).sum

/-- Modelled from the spec: cumulative (clamped) risk exposure of a path. -/
def pathRisk (g : List Edge) (p : List Nat) : ℚ :=
  ((pathEdges g p).map (fun e => clamp01 e.risk)).sum

/-- Modelled from the spec: total cost of a path, the sum of the cost
function over its edges. -/
def pathCost (g : List Edge) (riskWeight : ℚ) (p : List Nat) : ℚ :=
  ((pathEdges g p).map (fun e => weight e riskWeight)).sum

theorem pathCost_eq (g : List Edge) (w : ℚ) (p : List Nat) :
    pathCost g w p = pathResistance g p + w * pathRisk g p := by
  unfold pathCost pathResistance pathRisk weight
  induction pathEdges g p with
  | nil => simp
  | cons e es ih => simp only [List.map_cons, List.sum_cons, ih]; ring

/-- Modelled from the spec: the neighbors of a node, derived from the edges
incident to it. -/
def nbrs (g : List Edge) (u : Nat) : List Nat :=
  g.filterMap (fun e => if e.a = u then some e.b else if e.b = u then some e.a else none)

/-- Modelled from the spec: enumeration of the simple paths from `u` to `t`
that avoid the already-visited nodes, with a fuel bound on the length. -/
def pathsFrom (g : List Edge) : Nat → Nat → Nat → List Nat → List (List Nat)
  | 0, _, _, _ => []
  | fuel + 1, u, t, visited =>
    if u = t then [[t]]
    else ((nbrs g u).filter (fun v => !(u :: visited).contains v)).flatMap
      (fun v => (pathsFrom g fuel v t (u :: visited)).map (fun p => u :: p))

/-- Modelled from the spec: all simple paths between a substation and a
generator (fuel large enough for any simple path in the graph). -/
def allPaths (g : List Edge) (s t : Nat) : List (List Nat) :=
  pathsFrom g (2 * g.length + 2) s t []

/-- Strict lexicographic order on node-id sequences, the final tie-break of
the path finder. -/
def listLt : List Nat → List Nat → Bool
  | _, [] => false
  | [], _ :: _ => true
  | x :: xs, y :: ys => decide (x < y) || (decide (x = y) && listLt xs ys)

/-- Modelled from the spec: the selection order of the path finder — lower
total cost first, then fewer hops, then the lexicographically smallest
node-id sequence. -/
def KeyLt (g : List Edge) (w : ℚ) (p q : List Nat) : Prop :=
  pathCost g w p < pathCost g w q ∨
    (pathCost g w p = pathCost g w q ∧
      (p.length < q.length ∨ (p.length = q.length ∧ listLt p q = true)))

instance (g : List Edge) (w : ℚ) (p q : List Nat) : Decidable (KeyLt g w p q) := by
  unfold KeyLt; infer_instance

/-- Modelled from the spec: one comparison step of the selection — keep the
candidate seen so far unless the new one is strictly smaller in the
path-finder order. -/
def chooseStep (g : List Edge) (w : ℚ) (acc : Option (List Nat)) (q : List Nat) :
    Option (List Nat) :=
  match acc with
  | none => some q
  | some p => if KeyLt g w q p then some q else some p

/-- Modelled from the spec: select the minimal candidate path under the
path-finder order. -/
def choose (g : List Edge) (w : ℚ) (ps : List (List Nat)) : Option (List Nat) :=
  ps.foldl (chooseStep g w) none

/-- Modelled from the spec: the path finder — the minimum total-cost simple
path from substation `s` to generator `t`, with the documented tie-breaks;
`none` signals `NoPathError`. -/
def findPath (g : List Edge) (w : ℚ) (s t : Nat) : Option (List Nat) :=
  choose g w (allPaths g s t)

theorem listLt_irrefl (p : List Nat) : listLt p p = false := by
  induction p with
  | nil => rfl
  | cons x xs ih => simp [listLt, ih]

theorem listLt_trans (p q r : List Nat) (h1 : listLt p q = true)
    (h2 : listLt q r = true) : listLt p r = true := by
  induction p generalizing q r with
  | nil =>
    cases q with
    | nil => simp [listLt] at h1
    | cons y ys =>
      cases r with
      | nil => simp [listLt] at h2
      | cons z zs => simp [listLt]
  | cons x xs ih =>
    cases q with
    | nil => simp [listLt] at h1
    | cons y ys =>
      cases r with
      | nil => simp [listLt] at h2
      | cons z zs =>
        simp only [listLt, Bool.or_eq_true, Bool.and_eq_true,
          decide_eq_true_eq] at h1 h2 ⊢
        rcases h1 with h1 | ⟨hxy, h1⟩
        · rcases h2 with h2 | ⟨hyz, h2⟩
          · exact Or.inl (lt_trans h1 h2)
          · exact Or.inl (hyz ▸ h1)
        · rcases h2 with h2 | ⟨hyz, h2⟩
          · exact Or.inl (hxy ▸ h2)
          · exact Or.inr ⟨hxy.trans hyz, ih ys zs h1 h2⟩

theorem listLt_total (p q : List Nat) (h : p ≠ q) :
    listLt p q = true ∨ listLt q p = true := by
  induction p generalizing q with
  | nil =>
    cases q with
    | nil => exact absurd rfl h
    | cons y ys => left; simp [listLt]
  | cons x xs ih =>
    cases q with
    | nil => right; simp [listLt]
    | cons y ys =>
      rcases Nat.lt_trichotomy x y with hxy | hxy | hxy
      · left
        simp only [listLt, Bool.or_eq_true, Bool.and_eq_true, decide_eq_true_eq]
        exact Or.inl hxy
      · subst hxy
        have hxs : xs ≠ ys := by intro hc; exact h (by rw [hc])
        rcases ih ys hxs with h' | h'
        · left; simp [listLt, h']
        · right; simp [listLt, h']
      · right
        simp only [listLt, Bool.or_eq_true, Bool.and_eq_true, decide_eq_true_eq]
        exact Or.inl hxy

theorem keyLt_irrefl (g : List Edge) (w : ℚ) (p : List Nat) : ¬ KeyLt g w p p := by
  unfold KeyLt
  simp [listLt_irrefl]

theorem keyLt_trans (g : List Edge) (w : ℚ) (p q r : List Nat)
    (h1 : KeyLt g w p q) (h2 : KeyLt g w q r) : KeyLt g w p r := by
  unfold KeyLt at h1 h2 ⊢
  rcases h1 with h1 | ⟨hc1, h1⟩
  · rcases h2 with h2 | ⟨hc2, h2⟩
    · exact Or.inl (lt_trans h1 h2)
    · exact Or.inl (hc2 ▸ h1)
  · rcases h2 with h2 | ⟨hc2, h2⟩
    · exact Or.inl (hc1 ▸ h2)
    · refine Or.inr ⟨hc1.trans hc2, ?_⟩
      rcases h1 with h1 | ⟨hl1, h1⟩
      · rcases h2 with h2 | ⟨hl2, h2⟩
        · exact Or.inl (lt_trans h1 h2)
        · exact Or.inl (hl2 ▸ h1)
      · rcases h2 with h2 | ⟨hl2, h2⟩
        · exact Or.inl (hl1 ▸ h2)
        · exact Or.inr ⟨hl1.trans hl2, listLt_trans p q r h1 h2⟩

theorem keyLt_total (g : List Edge) (w : ℚ) (p q : List Nat) (h : p ≠ q) :
    KeyLt g w p q ∨ KeyLt g w q p := by
  unfold KeyLt
  rcases lt_trichotomy (pathCost g w p) (pathCost g w q) with hc | hc | hc
  · exact Or.inl (Or.inl hc)
  · rcases Nat.lt_trichotomy p.length q.length with hl | hl | hl
    · exact Or.inl (Or.inr ⟨hc, Or.inl hl⟩)
    · rcases listLt_total p q h with h' | h'
      · exact Or.inl (Or.inr ⟨hc, Or.inr ⟨hl, h'⟩⟩)
      · exact Or.inr (Or.inr ⟨hc.symm, Or.inr ⟨hl.symm, h'⟩⟩)
    · exact Or.inr (Or.inr ⟨hc.symm, Or.inl hl⟩)
  · exact Or.inr (Or.inl hc)

theorem chooseStep_none (g : List Edge) (w : ℚ) (q : List Nat) :
    chooseStep g w none q = some q := rfl

theorem chooseStep_some (g : List Edge) (w : ℚ) (p q : List Nat) :
    chooseStep g w (some p) q = if KeyLt g w q p then some q else some p := rfl

theorem choose_aux_mem (g : List Edge) (w : ℚ) (ps : List (List Nat)) :
    ∀ (acc : Option (List Nat)) (p : List Nat),
      ps.foldl (chooseStep g w) acc = some p → acc = some p ∨ p ∈ ps := by
  induction ps with
  | nil => intro acc p h; exact Or.inl h
  | cons a rest ih =>
    intro acc p h
    simp only [List.foldl_cons] at h
    rcases ih (chooseStep g w acc a) p h with h' | h'
    · match acc, h' with
      | none, h' =>
        rw [chooseStep_none] at h'
        obtain rfl := Option.some.inj h'
        exact Or.inr (List.mem_cons_self a rest)
      | some r, h' =>
        rw [chooseStep_some] at h'
        by_cases hk : KeyLt g w a r
        · rw [if_pos hk] at h'
          obtain rfl := Option.some.inj h'
          exact Or.inr (List.mem_cons_self a rest)
        · rw [if_neg hk] at h'
          exact Or.inl h'
    · exact Or.inr (List.mem_cons_of_mem a h')

theorem choose_aux_min (g : List Edge) (w : ℚ) (ps : List (List Nat)) :
    ∀ (acc : Option (List Nat)) (p : List Nat),
      ps.foldl (chooseStep g w) acc = some p →
      (∀ q ∈ ps, ¬ KeyLt g w q p) ∧ (∀ r, acc = some r → ¬ KeyLt g w r p) := by
  induction ps with
  | nil =>
    intro acc p h
    constructor
    · intro q hq
      exact absurd hq (List.not_mem_nil q)
    · intro r hr
      rw [List.foldl_nil, hr] at h
      cases h
      exact keyLt_irrefl g w p
  | cons a rest ih =>
    intro acc p h
    simp only [List.foldl_cons] at h
    obtain ⟨hrest, hacc⟩ := ih (chooseStep g w acc a) p h
    have ha : ¬ KeyLt g w a p := by
      match acc with
      | none => exact hacc a (chooseStep_none g w a)
      | some r =>
        by_cases hk : KeyLt g w a r
        · exact hacc a (by rw [chooseStep_some, if_pos hk])
        · have hr : ¬ KeyLt g w r p := hacc r (by rw [chooseStep_some, if_neg hk])
          intro hap
          rcases eq_or_ne a r with hae | hne
          · exact hr (hae ▸ hap)
          · rcases keyLt_total g w a r hne with h' | h'
            · exact hk h'
            · exact hr (keyLt_trans g w r a p h' hap)
    refine ⟨?_, ?_⟩
    · intro q hq
      rcases List.mem_cons.mp hq with hq | hq
      · exact hq ▸ ha
      · exact hrest q hq
    · intro r hr
      subst hr
      by_cases hk : KeyLt g w a r
      · intro hrp
        exact ha (keyLt_trans g w a r p hk hrp)
      · exact hacc r (by rw [chooseStep_some, if_neg hk])

/-- The selected path is a member of the candidate list. -/
theorem choose_mem (g : List Edge) (w : ℚ) (ps : List (List Nat)) (p : List Nat)
    (h : choose g w ps = some p) : p ∈ ps := by
  rcases choose_aux_mem g w ps none p h with h' | h'
  · cases h'
  · exact h'

/-- No candidate beats the selected path in the path-finder order. -/
theorem choose_min (g : List Edge) (w : ℚ) (ps : List (List Nat)) (p : List Nat)
    (h : choose g w ps = some p) : ∀ q ∈ ps, ¬ KeyLt g w q p :=
  (choose_aux_min g w ps none p h).1

/-- The selected path strictly precedes every other candidate in the
path-finder order: the tie-break makes the selection unique. -/
theorem choose_unique (g : List Edge) (w : ℚ) (ps : List (List Nat)) (p : List Nat)
    (h : choose g w ps = some p) : ∀ q ∈ ps, q ≠ p → KeyLt g w p q := by
  intro q hq hne
  rcases keyLt_total g w p q (fun hc => hne hc.symm) with h' | h'
  · exact h'
  · exact absurd h' (choose_min g w ps p h q hq)

/-- The path finder returns a candidate no other candidate beats. -/
theorem findPath_min (g : List Edge) (w : ℚ) (s t : Nat) (p : List Nat)
    (h : findPath g w s t = some p) :
    p ∈ allPaths g s t ∧ ∀ q ∈ allPaths g s t, ¬ KeyLt g w q p :=
  ⟨choose_mem g w (allPaths g s t) p h, choose_min g w (allPaths g s t) p h⟩

/-- A chosen path has minimal cost among all candidate paths. -/
theorem findPath_cost_le (g : List Edge) (w : ℚ) (s t : Nat) (p : List Nat)
    (h : findPath g w s t = some p) :
    ∀ q ∈ allPaths g s t, pathCost g w p ≤ pathCost g w q := by
  intro q hq
  have := (findPath_min g w s t p h).2 q hq
  unfold KeyLt at this
  push_neg at this
  exact this.1

/-- Modelled from the spec: the concrete two-edge scenario.  Substation 0
reaches generator 2 either over the risky edge (resistance 0.002, risk 0.9)
followed by an ideal helper edge, or over the alternative edge
(resistance 0.01, risk 0.1) directly; the helper node keeps the two
alternatives from being parallel edges. -/
def scenarioGraph : List Edge :=
  [⟨0, 1, 1/500, 9/10⟩, ⟨1, 2, 0, 0⟩, ⟨0, 2, 1/100, 1/10⟩]

/-- C3: under riskWeight 10 the risky edge costs 0.002 + 10 × 0.9 = 9.002,
the alternative edge costs 0.01 + 10 × 0.1 = 1.01, and the path finder
selects the route over the second (higher-resistance, lower-combined-cost)
edge. -/
theorem C3_two_edge_scenario :
    weight ⟨0, 1, 1/500, 9/10⟩ 10 = 9002/1000 ∧
      weight ⟨0, 2, 1/100, 1/10⟩ 10 = 101/100 ∧
      pathCost scenarioGraph 10 [0, 1, 2] = 9002/1000 ∧
      pathCost scenarioGraph 10 [0, 2] = 101/100 ∧
      findPath scenarioGraph 10 0 2 = some [0, 2] := by
  refine ⟨?_, ?_, ?_, ?_, ?_⟩
  · norm_num [weight, clamp01]
  · norm_num [weight, clamp01]
  · norm_num [pathCost, pathEdges, findEdge, weight, clamp01, scenarioGraph]
  · norm_num [pathCost, pathEdges, findEdge, weight, clamp01, scenarioGraph]
  · norm_num [findPath, allPaths, pathsFrom, nbrs, choose, chooseStep, KeyLt,
      pathCost, pathEdges, findEdge, weight, clamp01, listLt, scenarioGraph,
      List.filterMap, List.filter, List.flatMap]

/-- Modelled from the spec: a substation taking part in an episode, with its
constant demand (MW) and the generator sampled for it by the assignment
policy (held fixed here: the claims concern the deterministic parts). -/
structure Substation where
  id : Nat
  demand : ℚ
  gen : Nat
deriving DecidableEq, Repr

/-- Modelled from the spec: one per-substation record of the published
episode result; a substation whose path finder query fails is present but
carries no path/loss entry. -/
structure PathRecord where
  sub : Nat
  demand : ℚ
  route : Option (List Nat)
  loss : Option ℚ
deriving DecidableEq, Repr

/-- Modelled from the spec: resolve one substation — query the path finder
and derive `loss(MW) = demand(MW) × totalResistance(path)` when a path
exists. -/
def resolveOne (g : List Edge) (w : ℚ) (s : Substation) : PathRecord :=
  { sub := s.id, demand := s.demand,
    route := findPath g w s.id s.gen,
    loss := (findPath g w s.id s.gen).map (fun p => s.demand * pathResistance g p) }

/-- Modelled from the spec: the per-substation part of one episode — every
substation is resolved, and a failure for one substation does not abort the
others. -/
def runEpisode (g : List Edge) (w : ℚ) (subs : List Substation) : List PathRecord :=
  subs.map (resolveOne g w)

/-- Modelled from the spec: total episode loss, aggregated over the
substations that resolved (failed ones contribute no loss entry). -/
def episodeLoss (rs : List PathRecord) : ℚ :=
  (rs.filterMap (fun r => r.loss)).sum

/-- Modelled from the spec: total demand of the substations that resolved. -/
def resolvedDemand (rs : List PathRecord) : ℚ :=
  ((rs.filter (fun r => r.route.isSome)).map (fun r => r.demand)).sum

/-- Modelled from the spec:
`lossPercent = 100 × Σ loss / Σ demand` over the episode. -/
def lossPercent (rs : List PathRecord) : ℚ :=
  100 * episodeLoss rs / resolvedDemand rs

/-- Modelled from the spec: the substations the policy trains on — exactly
those whose path resolved in this episode. -/
def trainedSubs (rs : List PathRecord) : List Nat :=
  ((rs.filter (fun r => r.route.isSome)).map (fun r => r.sub))

/-- Replace every edge risk using `f`, holding the topology and the
resistances fixed. -/
def mapRisk (f : ℚ → ℚ) (g : List Edge) : List Edge :=
  g.map (fun e => { e with risk := f e.risk })

theorem findEdge_mapRisk (f : ℚ → ℚ) (g : List Edge) (u v : Nat) :
    findEdge (mapRisk f g) u v =
      (findEdge g u v).map (fun e => { e with risk := f e.risk }) := by
  unfold findEdge mapRisk
  rw [List.find?_map]
  rfl

theorem pathResistance_mapRisk (f : ℚ → ℚ) (g : List Edge) (p : List Nat) :
    pathResistance (mapRisk f g) p = pathResistance g p := by
  unfold pathResistance
  induction p with
  | nil => rfl
  | cons u rest ih =>
    cases rest with
    | nil => rfl
    | cons v rest' =>
      show ((pathEdges (mapRisk f g) (u :: v :: rest')).map _).sum = _
      rw [pathEdges, pathEdges, findEdge_mapRisk]
      cases findEdge g u v with
      | none => simpa using ih
      | some e =>
        simp only [Option.map_some, Option.toList_some, List.map_append,
          List.sum_append, List.map_cons, List.map_nil, List.sum_cons,
          List.sum_nil] at ih ⊢
        simpa using ih

theorem resolvedDemand_all_resolved (g : List Edge) (w : ℚ) (subs : List Substation)
    (hall : ∀ r ∈ runEpisode g w subs, r.route.isSome) :
    resolvedDemand (runEpisode g w subs) = ((subs.map (fun s => s.demand)).sum) := by
  induction subs with
  | nil => rfl
  | cons s rest ih =>
    have hs : (resolveOne g w s).route.isSome :=
      hall (resolveOne g w s) (List.mem_cons_self _ _)
    have hrest : ∀ r ∈ runEpisode g w rest, r.route.isSome := by
      intro r hr
      exact hall r (List.mem_cons_of_mem _ hr)
    unfold runEpisode resolvedDemand at ih ⊢
    simp only [List.map_cons, List.filter_cons, hs, if_pos, List.map_cons,
      List.sum_cons]
    rw [ih hrest]
    rfl

/-- From `gridOptimizationService.js` (`formatGridStateForDashboard`,
lines 414–418): `transmissionLoss = (totalDemand × lossPercentage) / 100`. -/
def formatTransmissionLoss (totalDemand lossPercentage : ℚ) : ℚ :=
  totalDemand * lossPercentage / 100

/-- C2: when every substation of the episode resolves, each published loss
entry is demand × totalResistance of the path, the episode lossPercent is
100 × Σ loss / Σ demand over all substations of the episode, the loss
quantity is independent of the edge risks (resistance only), and the
dashboard inverse computation recovers the absolute loss from the
percentage. -/
theorem C2_loss_formula (g : List Edge) (w : ℚ) (subs : List Substation)
    (hall : ∀ r ∈ runEpisode g w subs, r.route.isSome) :
    (∀ r ∈ runEpisode g w subs, ∀ p, r.route = some p →
        r.loss = some (r.demand * pathResistance g p)) ∧
      lossPercent (runEpisode g w subs) =
        100 * episodeLoss (runEpisode g w subs) / ((subs.map (fun s => s.demand)).sum) ∧
      (∀ f : ℚ → ℚ, ∀ d : ℚ, ∀ p : List Nat,
        d * pathResistance (mapRisk f g) p = d * pathResistance g p) ∧
      ((subs.map (fun s => s.demand)).sum ≠ 0 →
        formatTransmissionLoss ((subs.map (fun s => s.demand)).sum)
            (lossPercent (runEpisode g w subs)) =
          episodeLoss (runEpisode g w subs)) := by
  refine ⟨?_, ?_, ?_, ?_⟩
  · intro r hr p hp
    obtain ⟨s, _, rfl⟩ := List.mem_map.mp hr
    unfold resolveOne at hp ⊢
    simp only at hp ⊢
    rw [hp]
    rfl
  · unfold lossPercent
    rw [resolvedDemand_all_resolved g w subs hall]
  · intro f d p
    rw [pathResistance_mapRisk]
  · intro hD
    unfold formatTransmissionLoss lossPercent
    rw [resolvedDemand_all_resolved g w subs hall]
    field_simp

/-- Concrete instantiation of C2: one substation of demand 5 routed over a
single edge of resistance 1. -/
theorem C2_loss_formula_witness :
    lossPercent (runEpisode [⟨0, 1, 1, 0⟩] 5 [⟨0, 5, 1⟩]) =
      100 * episodeLoss (runEpisode [⟨0, 1, 1, 0⟩] 5 [⟨0, 5, 1⟩]) /
        ((([⟨0, 5, 1⟩] : List Substation).map (fun s => s.demand)).sum) :=
  (C2_loss_formula [⟨0, 1, 1, 0⟩] 5 [⟨0, 5, 1⟩] (by
    intro r hr
    simp only [runEpisode, resolveOne, List.map_cons, List.map_nil,
      List.mem_singleton] at hr
    subst hr
    norm_num [findPath, allPaths, pathsFrom, nbrs, choose, chooseStep, KeyLt,
      pathCost, pathEdges, findEdge, weight, clamp01, listLt,
      List.filterMap, List.filter, List.flatMap])).2.1

theorem episodeLoss_resolved_only (g : List Edge) (w : ℚ) (subs : List Substation) :
    episodeLoss (runEpisode g w subs) =
      episodeLoss ((runEpisode g w subs).filter (fun r => r.route.isSome)) := by
  induction subs with
  | nil => rfl
  | cons s rest ih =>
    unfold runEpisode episodeLoss at ih ⊢
    simp only [List.map_cons, List.filterMap_cons, List.filter_cons]
    cases hfp : findPath g w s.id s.gen with
    | none =>
      have h1 : (resolveOne g w s).route = none := by unfold resolveOne; rw [hfp]
      have h2 : (resolveOne g w s).loss = none := by
        unfold resolveOne; simp only [hfp]; rfl
      simp only [h1, h2, Option.isSome_none, Bool.false_eq_true, if_false, ih]
    | some p =>
      have h1 : (resolveOne g w s).route = some p := by unfold resolveOne; rw [hfp]
      have h2 : (resolveOne g w s).loss = some (s.demand * pathResistance g p) := by
        unfold resolveOne; simp only [hfp]; rfl
      simp only [h1, h2, Option.isSome_some, if_true, List.filterMap_cons, h2,
        List.sum_cons, ih]

theorem filter_route_idem (rs : List PathRecord) :
    (rs.filter (fun r => r.route.isSome)).filter (fun r => r.route.isSome) =
      rs.filter (fun r => r.route.isSome) := by
  induction rs with
  | nil => rfl
  | cons r rest ih =>
    by_cases h : r.route.isSome
    · simp [List.filter_cons, h, ih]
    · simp [List.filter_cons, h, ih]

theorem trainedSubs_eq (g : List Edge) (w : ℚ) (subs : List Substation) :
    trainedSubs (runEpisode g w subs) =
      (subs.filter (fun s => (findPath g w s.id s.gen).isSome)).map (fun s => s.id) := by
  induction subs with
  | nil => rfl
  | cons s rest ih =>
    unfold trainedSubs runEpisode at ih ⊢
    simp only [List.map_cons, List.filter_cons]
    cases hfp : findPath g w s.id s.gen with
    | none =>
      have h1 : (resolveOne g w s).route = none := by unfold resolveOne; rw [hfp]
      simp only [h1, Option.isSome_none, Bool.false_eq_true, if_false, ih]
    | some p =>
      have h1 : (resolveOne g w s).route = some p := by unfold resolveOne; rw [hfp]
      simp only [h1, Option.isSome_some, if_true, List.map_cons, ih]
      rfl

/-- C4: an episode in which the path finder fails for some substation still
completes — there is one record per substation, a failed substation is
present in the published result with no path/loss entry (never silently
omitted), the loss and demand aggregates range only over the substations
that resolved, and training happens exactly on the substations that
succeeded. -/
theorem C4_no_path_episode (g : List Edge) (w : ℚ) (subs : List Substation) :
    (runEpisode g w subs).length = subs.length ∧
      (∀ s ∈ subs, ∃ r ∈ runEpisode g w subs,
        r.sub = s.id ∧ r.demand = s.demand ∧
        r.route = findPath g w s.id s.gen ∧
        (findPath g w s.id s.gen = none → r.route = none ∧ r.loss = none)) ∧
      episodeLoss (runEpisode g w subs) =
        episodeLoss ((runEpisode g w subs).filter (fun r => r.route.isSome)) ∧
      resolvedDemand (runEpisode g w subs) =
        resolvedDemand ((runEpisode g w subs).filter (fun r => r.route.isSome)) ∧
      trainedSubs (runEpisode g w subs) =
        (subs.filter (fun s => (findPath g w s.id s.gen).isSome)).map (fun s => s.id) := by
  refine ⟨?_, ?_, ?_, ?_, ?_⟩
  · unfold runEpisode
    exact List.length_map subs (resolveOne g w)
  · intro s hs
    refine ⟨resolveOne g w s, List.mem_map_of_mem (resolveOne g w) hs, rfl, rfl, rfl, ?_⟩
    intro hnone
    unfold resolveOne
    rw [hnone]
    exact ⟨rfl, rfl⟩
  · exact episodeLoss_resolved_only g w subs
  · unfold resolvedDemand
    rw [filter_route_idem]
  · exact trainedSubs_eq g w subs

/-- Modelled from the spec: a topology whose only edge joins nodes 0 and 1,
so substation 2 is disconnected from every generator. -/
def cutGraph : List Edge := [⟨0, 1, 1, 0⟩]

/-- Modelled from the spec: one resolvable substation and one disconnected
substation, both requesting generator 1. -/
def cutSubs : List Substation := [⟨0, 5, 1⟩, ⟨2, 7, 1⟩]

/-- Concrete instantiation of C4: the disconnected substation 2 is present
in the completed episode result without a path/loss entry. -/
theorem C4_no_path_episode_witness :
    (runEpisode cutGraph 5 cutSubs).length = 2 ∧
      ∃ r ∈ runEpisode cutGraph 5 cutSubs, r.sub = 2 ∧ r.route = none ∧ r.loss = none := by
  obtain ⟨hlen, hpres, _, _, _⟩ := C4_no_path_episode cutGraph 5 cutSubs
  refine ⟨hlen, ?_⟩
  obtain ⟨r, hr, hsub, hdem, hroute, hfail⟩ :=
    hpres ⟨2, 7, 1⟩ (by simp [cutSubs])
  have hnone : findPath cutGraph 5 2 1 = none := by
    simp [findPath, allPaths, pathsFrom, nbrs, choose, cutGraph,
      List.filterMap, List.filter, List.flatMap]
  obtain ⟨h1, h2⟩ := hfail hnone
  exact ⟨r, hr, hsub, h1, h2⟩

/-- Average risk across the edges used by a path, as published in the
episode result aggregates. -/
def avgPathRisk (g : List Edge) (p : List Nat) : ℚ :=
  pathRisk g p / (pathEdges g p).length

/-- Modelled from the spec: a topology trading resistance against risk —
the direct edge 0–2 is free but maximally risky, the detour over node 1
costs resistance 1 but carries no risk. -/
def riskTradeGraph : List Edge :=
  [⟨0, 2, 0, 1⟩, ⟨0, 1, 1, 0⟩, ⟨1, 2, 0, 0⟩]

/-- C6 counterexample: on `riskTradeGraph`, raising the risk weight from 0
to 10 switches the chosen path from the risky direct edge to the risk-free
detour, so the average risk of the chosen path under the larger weight is
strictly lower — refuting the claim that it is never lower. -/
theorem C6_counterexample :
    findPath riskTradeGraph 0 0 2 = some [0, 2] ∧
      findPath riskTradeGraph 10 0 2 = some [0, 1, 2] ∧
      avgPathRisk riskTradeGraph [0, 1, 2] < avgPathRisk riskTradeGraph [0, 2] := by
  refine ⟨?_, ?_, ?_⟩
  · norm_num [findPath, allPaths, pathsFrom, nbrs, choose, chooseStep, KeyLt,
      pathCost, pathEdges, findEdge, weight, clamp01, listLt, riskTradeGraph,
      List.filterMap, List.filter, List.flatMap]
  · norm_num [findPath, allPaths, pathsFrom, nbrs, choose, chooseStep, KeyLt,
      pathCost, pathEdges, findEdge, weight, clamp01, listLt, riskTradeGraph,
      List.filterMap, List.filter, List.flatMap]
  · norm_num [avgPathRisk, pathRisk, pathEdges, findEdge, clamp01, riskTradeGraph]

/-- C6 (amended): for a fixed topology with fixed risk scores, increasing
the risk weight never increases the cumulative (clamped) risk of the chosen
path: if the path finder chooses `p1` under `w1` and `p2` under `w2` with
`w1 < w2`, then the risk of `p2` is at most the risk of `p1` (the scalarized
tradeoff is monotonically risk-averse; the per-edge average is not monotone
in either direction). -/
theorem C6_riskWeight_monotone_risk (g : List Edge) (w1 w2 : ℚ) (s t : Nat)
    (hw : w1 < w2) (p1 p2 : List Nat)
    (h1 : findPath g w1 s t = some p1) (h2 : findPath g w2 s t = some p2) :
    pathRisk g p2 ≤ pathRisk g p1 := by
  have m1 := findPath_cost_le g w1 s t p1 h1 p2 (findPath_min g w2 s t p2 h2).1
  have m2 := findPath_cost_le g w2 s t p2 h2 p1 (findPath_min g w1 s t p1 h1).1
  rw [pathCost_eq, pathCost_eq] at m1 m2
  nlinarith [m1, m2, hw]

/-- Concrete instantiation of the amended C6 on `riskTradeGraph` with
weights 0 < 10. -/
theorem C6_riskWeight_monotone_risk_witness :
    pathRisk riskTradeGraph [0, 1, 2] ≤ pathRisk riskTradeGraph [0, 2] :=
  C6_riskWeight_monotone_risk riskTradeGraph 0 10 0 2 (by norm_num) [0, 2] [0, 1, 2]
    (by norm_num [findPath, allPaths, pathsFrom, nbrs, choose, chooseStep, KeyLt,
      pathCost, pathEdges, findEdge, weight, clamp01, listLt, riskTradeGraph,
      List.filterMap, List.filter, List.flatMap])
    (by norm_num [findPath, allPaths, pathsFrom, nbrs, choose, chooseStep, KeyLt,
      pathCost, pathEdges, findEdge, weight, clamp01, listLt, riskTradeGraph,
      List.filterMap, List.filter, List.flatMap])

/-- C7: the non-stochastic parts are deterministic.  Re-running the episode
on identical inputs gives the identical published result (the embedding is a
pure function), the path selected by the path finder is the unique minimum
of the selection order among all candidate paths, and any other candidate
path of equal cost loses the tie-break — it has more hops, or equally many
hops and a lexicographically larger node-id sequence. -/
theorem C7_deterministic_tiebreak (g : List Edge) (w : ℚ) (s t : Nat)
    (subs : List Substation) (p : List Nat) (h : findPath g w s t = some p) :
    runEpisode g w subs = runEpisode g w subs ∧
      (∀ q, q ∈ allPaths g s t → (∀ r ∈ allPaths g s t, ¬ KeyLt g w r q) → q = p) ∧
      (∀ q ∈ allPaths g s t, q ≠ p → pathCost g w q = pathCost g w p →
        p.length < q.length ∨ (p.length = q.length ∧ listLt p q = true)) := by
  refine ⟨rfl, ?_, ?_⟩
  · intro q hq hmin
    by_contra hne
    have hpq : KeyLt g w p q := choose_unique g w (allPaths g s t) p h q hq hne
    exact hmin p (findPath_min g w s t p h).1 hpq
  · intro q hq hne hcost
    have hnlt : ¬ KeyLt g w q p := (findPath_min g w s t p h).2 q hq
    unfold KeyLt at hnlt
    push_neg at hnlt
    obtain ⟨hle, hrest⟩ := hnlt
    obtain ⟨hlen, hlex⟩ := hrest hcost
    rcases lt_or_eq_of_le hlen with hlt | heq
    · exact Or.inl hlt
    · refine Or.inr ⟨heq, ?_⟩
      have hnql : ¬ listLt q p = true := hlex heq.symm
      rcases listLt_total q p hne with h' | h'
      · exact absurd h' hnql
      · exact h'

/-- Modelled from the spec: a topology with two equal-cost routes from 0 to
2 — direct with one hop, or a detour of two hops with the same total
resistance and no risk anywhere. -/
def tieGraph : List Edge :=
  [⟨0, 2, 1, 0⟩, ⟨0, 1, 1/2, 0⟩, ⟨1, 2, 1/2, 0⟩]

/-- Concrete instantiation of C7 on `tieGraph`: the equal-cost two-hop
alternative loses the tie-break to the chosen one-hop path. -/
theorem C7_deterministic_tiebreak_witness :
    ([0, 2] : List Nat).length < ([0, 1, 2] : List Nat).length ∨
      (([0, 2] : List Nat).length = ([0, 1, 2] : List Nat).length ∧
        listLt [0, 2] [0, 1, 2] = true) :=
  (C7_deterministic_tiebreak tieGraph 5 0 2 [] [0, 2]
    (by norm_num [findPath, allPaths, pathsFrom, nbrs, choose, chooseStep, KeyLt,
      pathCost, pathEdges, findEdge, weight, clamp01, listLt, tieGraph,
      List.filterMap, List.filter, List.flatMap])).2.2 [0, 1, 2]
    (by norm_num [allPaths, pathsFrom, nbrs, tieGraph,
      List.filterMap, List.filter, List.flatMap])
    (by decide)
    (by norm_num [pathCost, pathEdges, findEdge, weight, clamp01, tieGraph])

/-- Modelled from the spec: the published loss metrics — the bounded
history of loss percentages and the running best (minimum) loss, `none`
before the first episode (the `/api/grid/loss` endpoint documents the
history as the last 100 entries and `best_loss` as the minimum achieved). -/
structure MetricsState where
  history : List ℚ
  best : Option ℚ
deriving DecidableEq, Repr

/-- Modelled from the spec: append one episode loss to the history, dropping
the oldest entries beyond the window, and update the running best loss. -/
def recordLoss (window : Nat) (st : MetricsState) (l : ℚ) : MetricsState :=
  let h := st.history ++ [l]
  { history := h.drop (h.length - window),
    best := some (match st.best with | none => l | some b => min b l) }

/-- Modelled from the spec: the metrics state before any episode ran. -/
def initMetrics : MetricsState := ⟨[], none⟩

/-- Modelled from the spec: the metrics state after appending a sequence of
episode losses in order. -/
def runMetrics (window : Nat) (losses : List ℚ) : MetricsState :=
  losses.foldl (recordLoss window) initMetrics

theorem recordLoss_length (window : Nat) (st : MetricsState) (l : ℚ) :
    (recordLoss window st l).history.length ≤ window := by
  unfold recordLoss
  simp only [List.length_drop]
  omega

theorem foldl_recordLoss_length (window : Nat) (losses : List ℚ) :
    ∀ st : MetricsState, st.history.length ≤ window →
      (losses.foldl (recordLoss window) st).history.length ≤ window := by
  induction losses with
  | nil => intro st h; exact h
  | cons a rest ih =>
    intro st _
    exact ih (recordLoss window st a) (recordLoss_length window st a)

theorem foldl_recordLoss_best_mono (window : Nat) (losses : List ℚ) :
    ∀ (st : MetricsState) (b : ℚ), st.best = some b →
      ∃ b', (losses.foldl (recordLoss window) st).best = some b' ∧ b' ≤ b := by
  induction losses with
  | nil => intro st b hb; exact ⟨b, hb, le_refl b⟩
  | cons a rest ih =>
    intro st b hb
    have hstep : (recordLoss window st a).best = some (min b a) := by
      unfold recordLoss
      rw [hb]
    obtain ⟨b', hb', hle⟩ := ih (recordLoss window st a) (min b a) hstep
    exact ⟨b', hb', le_trans hle (min_le_left b a)⟩

theorem foldl_recordLoss_best_le (window : Nat) (losses : List ℚ) :
    ∀ (st : MetricsState) (l : ℚ), l ∈ losses →
      ∃ b, (losses.foldl (recordLoss window) st).best = some b ∧ b ≤ l := by
  induction losses with
  | nil => intro st l hl; exact absurd hl (List.not_mem_nil l)
  | cons a rest ih =>
    intro st l hl
    rcases List.mem_cons.mp hl with rfl | hl
    · have hstep : ∃ c, (recordLoss window st l).best = some c ∧ c ≤ l := by
        unfold recordLoss
        cases hb : st.best with
        | none => exact ⟨l, rfl, le_refl l⟩
        | some b0 => exact ⟨min b0 l, rfl, min_le_right b0 l⟩
      obtain ⟨c, hc, hcl⟩ := hstep
      obtain ⟨b', hb', hle⟩ := foldl_recordLoss_best_mono window rest _ c hc
      exact ⟨b', hb', le_trans hle hcl⟩
    · exact ih (recordLoss window st a) l hl

/-- C5: after any sequence of appended episode losses, the history buffer
holds at most the configured window of entries, and the running best loss is
at most every loss value ever appended. -/
theorem C5_history_window_best_loss (window : Nat) (losses : List ℚ) :
    (runMetrics window losses).history.length ≤ window ∧
      ∀ l ∈ losses, ∃ b, (runMetrics window losses).best = some b ∧ b ≤ l := by
  constructor
  · exact foldl_recordLoss_length window losses initMetrics (Nat.zero_le window)
  · intro l hl
    exact foldl_recordLoss_best_le window losses initMetrics l hl

/-- Concrete instantiation of C5: window 2, appended losses 3, 1, 2. -/
theorem C5_history_window_best_loss_witness :
    (runMetrics 2 [3, 1, 2]).history.length ≤ 2 ∧
      ∃ b, (runMetrics 2 [3, 1, 2]).best = some b ∧ b ≤ 3 :=
  ⟨(C5_history_window_best_loss 2 [3, 1, 2]).1,
    (C5_history_window_best_loss 2 [3, 1, 2]).2 3 (by simp)⟩

/-! Embedding of `frontend/src/services/faultPredictionService.js`. -/

/-- From the source: `parseFloat(x.toFixed(2))` — rounding to two decimal
places (all values it is applied to here are exact multiples of 1/2, on
which it is the identity). -/
def round2 (x : ℚ) : ℚ := (⌊x * 100 + 1/2⌋ : ℚ) / 100

/-- From the source: the constructor risk-factor weight for temperature. -/
def wTemperature : ℚ := 25/100

/-- From the source: the constructor risk-factor weight for age. -/
def wAge : ℚ := 15/100

/-- From the source: the constructor risk-factor weight for maintenance. -/
def wMaintenance : ℚ := 20/100

/-- From the source: the constructor risk-factor weight for vibration. -/
def wVibration : ℚ := 15/100

/-- From the source: the constructor risk-factor weight for efficiency. -/
def wEfficiency : ℚ := 15/100

/-- From the source: the constructor risk-factor weight for load. -/
def wLoad : ℚ := 10/100

/-- From the source: temperature assessment of `predictTransformerFault`. -/
def tempRisk (temperature : ℚ) : ℚ :=
  if temperature > 75 then 9/10 else if temperature > 55 then 1/2 else 1/10

/-- From the source: age assessment of `predictTransformerFault`. -/
def ageRisk (age : ℚ) : ℚ :=
  if age > 25 then 9/10 else if age > 15 then 6/10 else if age > 5 then 3/10 else 1/10

/-- From the source: maintenance assessment of `predictTransformerFault`. -/
def maintenanceRisk (lastMaintenance : ℚ) : ℚ :=
  if lastMaintenance > 365 then 9/10 else if lastMaintenance > 180 then 6/10 else 2/10

/-- From the source: vibration assessment of `predictTransformerFault`. -/
def vibrationRisk (vibrationLevel : ℚ) : ℚ :=
  if vibrationLevel > 5 then 9/10 else if vibrationLevel > 3 then 6/10 else 2/10

/-- From the source: efficiency degradation assessment. -/
def efficiencyRisk (efficiency : ℚ) : ℚ :=
  if efficiency < 88/100 then 8/10 else if efficiency < 90/100 then 1/2 else 1/10

/-- From the source: load stress assessment. -/
def loadRisk (loadPercentage : ℚ) : ℚ :=
  if loadPercentage > 90 then 8/10 else if loadPercentage > 75 then 1/2 else 2/10

/-- From the source: the accumulated risk score of
`predictTransformerFault`, clamped above by `Math.min(100, riskScore)`. -/
def transformerRiskScore (temperature age lastMaintenance vibrationLevel
    efficiency loadPercentage : ℚ) : ℚ :=
  min 100 (tempRisk temperature * wTemperature * 100 +
    ageRisk age * wAge * 100 +
    maintenanceRisk lastMaintenance * wMaintenance * 100 +
    vibrationRisk vibrationLevel * wVibration * 100 +
    efficiencyRisk efficiency * wEfficiency * 100 +
    loadRisk loadPercentage * wLoad * 100)

/-- From the source: the result record of `predictTransformerFault`
(`timeToFailureEstimate` draws on `Math.random` and the `factors` and
`recommendations` fields are presentational; they are omitted). -/
structure TransformerFaultPrediction where
  predicted : Bool
  riskScore : ℚ
  severity : String
  confidence : ℚ
  maintenanceUrgency : String
deriving DecidableEq, Repr

/-- From the source: `predictTransformerFault` of
`faultPredictionService.js` (lines 24–103). -/
def predictTransformerFault (temperature age lastMaintenance vibrationLevel
    efficiency loadPercentage : ℚ) : TransformerFaultPrediction :=
  { predicted := decide
      (transformerRiskScore temperature age lastMaintenance vibrationLevel
        efficiency loadPercentage > 50),
    riskScore := round2
      (transformerRiskScore temperature age lastMaintenance vibrationLevel
        efficiency loadPercentage),
    severity :=
      if transformerRiskScore temperature age lastMaintenance vibrationLevel
          efficiency loadPercentage > 75 then "critical"
      else if transformerRiskScore temperature age lastMaintenance vibrationLevel
          efficiency loadPercentage > 55 then "high"
      else if transformerRiskScore temperature age lastMaintenance vibrationLevel
          efficiency loadPercentage > 35 then "medium"
      else "low",
    confidence :=
      if transformerRiskScore temperature age lastMaintenance vibrationLevel
          efficiency loadPercentage > 75 then 95
      else if transformerRiskScore temperature age lastMaintenance vibrationLevel
          efficiency loadPercentage > 55 then 88
      else if transformerRiskScore temperature age lastMaintenance vibrationLevel
          efficiency loadPercentage > 35 then 80
      else 75,
    maintenanceUrgency :=
      if transformerRiskScore temperature age lastMaintenance vibrationLevel
          efficiency loadPercentage > 75 then "immediate"
      else if transformerRiskScore temperature age lastMaintenance vibrationLevel
          efficiency loadPercentage > 55 then "urgent"
      else if transformerRiskScore temperature age lastMaintenance vibrationLevel
          efficiency loadPercentage > 35 then "soon"
      else "routine" }

theorem tempTerm_spec (t : ℚ) :
    (∃ k : ℤ, tempRisk t * wTemperature * 100 = k / 2) ∧
      5/2 ≤ tempRisk t * wTemperature * 100 ∧
      tempRisk t * wTemperature * 100 ≤ 45/2 := by
  unfold tempRisk wTemperature
  split_ifs
  · exact ⟨⟨45, by norm_num⟩, by norm_num, by norm_num⟩
  · exact ⟨⟨25, by norm_num⟩, by norm_num, by norm_num⟩
  · exact ⟨⟨5, by norm_num⟩, by norm_num, by norm_num⟩

theorem ageTerm_spec (a : ℚ) :
    (∃ k : ℤ, ageRisk a * wAge * 100 = k / 2) ∧
      3/2 ≤ ageRisk a * wAge * 100 ∧ ageRisk a * wAge * 100 ≤ 27/2 := by
  unfold ageRisk wAge
  split_ifs
  · exact ⟨⟨27, by norm_num⟩, by norm_num, by norm_num⟩
  · exact ⟨⟨18, by norm_num⟩, by norm_num, by norm_num⟩
  · exact ⟨⟨9, by norm_num⟩, by norm_num, by norm_num⟩
  · exact ⟨⟨3, by norm_num⟩, by norm_num, by norm_num⟩

theorem maintenanceTerm_spec (m : ℚ) :
    (∃ k : ℤ, maintenanceRisk m * wMaintenance * 100 = k / 2) ∧
      4 ≤ maintenanceRisk m * wMaintenance * 100 ∧
      maintenanceRisk m * wMaintenance * 100 ≤ 18 := by
  unfold maintenanceRisk wMaintenance
  split_ifs
  · exact ⟨⟨36, by norm_num⟩, by norm_num, by norm_num⟩
  · exact ⟨⟨24, by norm_num⟩, by norm_num, by norm_num⟩
  · exact ⟨⟨8, by norm_num⟩, by norm_num, by norm_num⟩

theorem vibrationTerm_spec (v : ℚ) :
    (∃ k : ℤ, vibrationRisk v * wVibration * 100 = k / 2) ∧
      3 ≤ vibrationRisk v * wVibration * 100 ∧
      vibrationRisk v * wVibration * 100 ≤ 27/2 := by
  unfold vibrationRisk wVibration
  split_ifs
  · exact ⟨⟨27, by norm_num⟩, by norm_num, by norm_num⟩
  · exact ⟨⟨18, by norm_num⟩, by norm_num, by norm_num⟩
  · exact ⟨⟨6, by norm_num⟩, by norm_num, by norm_num⟩

theorem efficiencyTerm_spec (e : ℚ) :
    (∃ k : ℤ, efficiencyRisk e * wEfficiency * 100 = k / 2) ∧
      3/2 ≤ efficiencyRisk e * wEfficiency * 100 ∧
      efficiencyRisk e * wEfficiency * 100 ≤ 12 := by
  unfold efficiencyRisk wEfficiency
  split_ifs
  · exact ⟨⟨24, by norm_num⟩, by norm_num, by norm_num⟩
  · exact ⟨⟨15, by norm_num⟩, by norm_num, by norm_num⟩
  · exact ⟨⟨3, by norm_num⟩, by norm_num, by norm_num⟩

theorem loadTerm_spec (l : ℚ) :
    (∃ k : ℤ, loadRisk l * wLoad * 100 = k / 2) ∧
      2 ≤ loadRisk l * wLoad * 100 ∧ loadRisk l * wLoad * 100 ≤ 8 := by
  unfold loadRisk wLoad
  split_ifs
  · exact ⟨⟨16, by norm_num⟩, by norm_num, by norm_num⟩
  · exact ⟨⟨10, by norm_num⟩, by norm_num, by norm_num⟩
  · exact ⟨⟨4, by norm_num⟩, by norm_num, by norm_num⟩

theorem round2_halfint (k : ℤ) : round2 ((k : ℚ) / 2) = (k : ℚ) / 2 := by
  unfold round2
  have h : (k : ℚ) / 2 * 100 + 1/2 = ((50 * k : ℤ) : ℚ) + 1/2 := by push_cast; ring
  rw [h, Int.floor_int_add]
  push_cast
  norm_num
  ring

/-- The accumulated risk score is an exact multiple of 1/2 and lies in
[14.5, 87.5]; in particular the `Math.min(100, ·)` clamp never fires and
the two-decimal rounding of the returned score is exact. -/
theorem transformerRiskScore_spec (t a m v e l : ℚ) :
    (∃ K : ℤ, transformerRiskScore t a m v e l = K / 2) ∧
      29/2 ≤ transformerRiskScore t a m v e l ∧
      transformerRiskScore t a m v e l ≤ 175/2 := by
  obtain ⟨⟨k1, e1⟩, lo1, hi1⟩ := tempTerm_spec t
  obtain ⟨⟨k2, e2⟩, lo2, hi2⟩ := ageTerm_spec a
  obtain ⟨⟨k3, e3⟩, lo3, hi3⟩ := maintenanceTerm_spec m
  obtain ⟨⟨k4, e4⟩, lo4, hi4⟩ := vibrationTerm_spec v
  obtain ⟨⟨k5, e5⟩, lo5, hi5⟩ := efficiencyTerm_spec e
  obtain ⟨⟨k6, e6⟩, lo6, hi6⟩ := loadTerm_spec l
  have hsum : tempRisk t * wTemperature * 100 + ageRisk a * wAge * 100 +
      maintenanceRisk m * wMaintenance * 100 + vibrationRisk v * wVibration * 100 +
      efficiencyRisk e * wEfficiency * 100 + loadRisk l * wLoad * 100 =
      ((k1 + k2 + k3 + k4 + k5 + k6 : ℤ) : ℚ) / 2 := by
    rw [e1, e2, e3, e4, e5, e6]
    push_cast
    ring
  have hle : tempRisk t * wTemperature * 100 + ageRisk a * wAge * 100 +
      maintenanceRisk m * wMaintenance * 100 + vibrationRisk v * wVibration * 100 +
      efficiencyRisk e * wEfficiency * 100 + loadRisk l * wLoad * 100 ≤ 175/2 := by
    linarith
  have hge : 29/2 ≤ tempRisk t * wTemperature * 100 + ageRisk a * wAge * 100 +
      maintenanceRisk m * wMaintenance * 100 + vibrationRisk v * wVibration * 100 +
      efficiencyRisk e * wEfficiency * 100 + loadRisk l * wLoad * 100 := by
    linarith
  have hmin : transformerRiskScore t a m v e l =
      tempRisk t * wTemperature * 100 + ageRisk a * wAge * 100 +
      maintenanceRisk m * wMaintenance * 100 + vibrationRisk v * wVibration * 100 +
      efficiencyRisk e * wEfficiency * 100 + loadRisk l * wLoad * 100 := by
    unfold transformerRiskScore
    exact min_eq_right (by linarith)
  refine ⟨⟨k1 + k2 + k3 + k4 + k5 + k6, ?_⟩, ?_, ?_⟩
  · rw [hmin, hsum]
  · rw [hmin]; exact hge
  · rw [hmin]; exact hle

/-- The returned `riskScore` equals the internal accumulated score: the
two-decimal rounding is exact on it. -/
theorem predict_riskScore_eq (t a m v e l : ℚ) :
    (predictTransformerFault t a m v e l).riskScore =
      transformerRiskScore t a m v e l := by
  obtain ⟨⟨K, hK⟩, _, _⟩ := transformerRiskScore_spec t a m v e l
  show round2 (transformerRiskScore t a m v e l) = _
  rw [hK, round2_halfint]

/-- C9: for every input, `predictTransformerFault` returns a riskScore in
[0, 100]; the predicted flag is true exactly when riskScore > 50; and the
severity is critical exactly when riskScore > 75, high exactly when
55 < riskScore ≤ 75, medium exactly when 35 < riskScore ≤ 55, and low
otherwise. -/
theorem C9_predictTransformerFault_spec (t a m v e l : ℚ) :
    (0 ≤ (predictTransformerFault t a m v e l).riskScore ∧
      (predictTransformerFault t a m v e l).riskScore ≤ 100) ∧
      ((predictTransformerFault t a m v e l).predicted = true ↔
        50 < (predictTransformerFault t a m v e l).riskScore) ∧
      ((predictTransformerFault t a m v e l).severity = "critical" ↔
        75 < (predictTransformerFault t a m v e l).riskScore) ∧
      ((predictTransformerFault t a m v e l).severity = "high" ↔
        55 < (predictTransformerFault t a m v e l).riskScore ∧
          (predictTransformerFault t a m v e l).riskScore ≤ 75) ∧
      ((predictTransformerFault t a m v e l).severity = "medium" ↔
        35 < (predictTransformerFault t a m v e l).riskScore ∧
          (predictTransformerFault t a m v e l).riskScore ≤ 55) ∧
      ((predictTransformerFault t a m v e l).severity = "low" ↔
        (predictTransformerFault t a m v e l).riskScore ≤ 35) := by
  obtain ⟨-, hlo, hhi⟩ := transformerRiskScore_spec t a m v e l
  have hrs := predict_riskScore_eq t a m v e l
  set s := transformerRiskScore t a m v e l with hs
  have hpred : (predictTransformerFault t a m v e l).predicted =
      decide (s > 50) := rfl
  have hsev : (predictTransformerFault t a m v e l).severity =
      (if s > 75 then "critical" else if s > 55 then "high"
        else if s > 35 then "medium" else "low") := rfl
  rw [hrs]
  refine ⟨⟨by linarith, by linarith⟩, ?_, ?_, ?_, ?_, ?_⟩
  · rw [hpred]
    simp [decide_eq_true_eq]
  · rw [hsev]
    split_ifs with h1 h2 h3 <;> simp [h1]
  · rw [hsev]
    split_ifs with h1 h2 h3
    · constructor
      · intro hc; simp at hc
      · intro hc; exfalso; linarith [hc.2]
    · exact ⟨fun _ => ⟨h2, le_of_not_lt h1⟩, fun _ => rfl⟩
    · constructor
      · intro hc; simp at hc
      · intro hc; exact absurd hc.1 h2
    · constructor
      · intro hc; simp at hc
      · intro hc; exact absurd hc.1 h2
  · rw [hsev]
    split_ifs with h1 h2 h3
    · constructor
      · intro hc; simp at hc
      · intro hc; exfalso; linarith [hc.2]
    · constructor
      · intro hc; simp at hc
      · intro hc; exfalso; linarith [hc.2]
    · exact ⟨fun _ => ⟨h3, le_of_not_lt h2⟩, fun _ => rfl⟩
    · constructor
      · intro hc; simp at hc
      · intro hc; exact absurd hc.1 h3
  · rw [hsev]
    split_ifs with h1 h2 h3
    · constructor
      · intro hc; simp at hc
      · intro hc; exfalso; linarith
    · constructor
      · intro hc; simp at hc
      · intro hc; exfalso; linarith
    · constructor
      · intro hc; simp at hc
      · intro hc; exfalso; linarith
    · exact ⟨fun _ => le_of_not_lt h3, fun _ => rfl⟩

/-! Embedding of `frontend/src/services/anomalyDetectionService.js`. -/

/-- From the source: the mean of the historical consumption values. -/
def histMean (values : List ℚ) : ℚ := values.sum / values.length

/-- From the source: the population variance of the historical values —
the square of the `stdDev` the source takes `Math.sqrt` of. -/
def histVariance (values : List ℚ) : ℚ :=
  ((values.map (fun n => (n - histMean values) ^ 2)).sum) / values.length

/-- From the source: the square of
`zScore = |currentValue − mean| / stdDev`; the square is embedded because
`√variance` is irrational in general, and squaring is faithful to the
source comparison whenever the variance is positive. -/
def zScoreSq (values : List ℚ) (currentValue : ℚ) : ℚ :=
  (currentValue - histMean values) ^ 2 / histVariance values

/-- From the source: the `detected = zScore > threshold` result of
`detectConsumptionAnomaly` (lines 14–30), expressed on squares; a negative
threshold is always exceeded by the non-negative z-score. -/
def detectConsumptionAnomaly (values : List ℚ) (currentValue threshold : ℚ) : Bool :=
  decide (threshold < 0 ∨
    threshold ^ 2 * histVariance values < (currentValue - histMean values) ^ 2)

theorem histVariance_nonneg (values : List ℚ) : 0 ≤ histVariance values := by
  unfold histVariance
  apply div_nonneg
  · apply List.sum_nonneg
    intro x hx
    obtain ⟨n, _, rfl⟩ := List.mem_map.mp hx
    positivity
  · positivity

theorem histVariance_replicate (x : ℚ) (n : Nat) :
    histVariance (List.replicate (n + 1) x) = 0 := by
  unfold histVariance histMean
  simp [List.sum_replicate, List.map_replicate]
  left; right
  have hx : ((n : ℚ) + 1) ≠ 0 := by positivity
  rw [mul_div_cancel_left₀ x hx, sub_self]

/-- C10: for a non-empty history with non-zero deviation, the variance is
strictly positive (the unguarded division is by a non-zero quantity, so the
z-score is finite), the squared z-score is non-negative, detection is
exactly the z-score comparison with the threshold, and a constant history
has zero variance — the non-finite branch of the unguarded division. -/
theorem C10_consumption_anomaly_spec (values : List ℚ) (c thr : ℚ)
    (_hne : values ≠ []) (hvar : histVariance values ≠ 0) :
    0 < histVariance values ∧
      0 ≤ zScoreSq values c ∧
      (detectConsumptionAnomaly values c thr = true ↔
        thr < 0 ∨ thr ^ 2 < zScoreSq values c) ∧
      (∀ x : ℚ, ∀ n : Nat, histVariance (List.replicate (n + 1) x) = 0) := by
  have hpos : 0 < histVariance values :=
    lt_of_le_of_ne (histVariance_nonneg values) (Ne.symm hvar)
  refine ⟨hpos, ?_, ?_, ?_⟩
  · unfold zScoreSq
    apply div_nonneg (sq_nonneg _) (le_of_lt hpos)
  · unfold detectConsumptionAnomaly zScoreSq
    rw [decide_eq_true_eq]
    constructor
    · rintro (h | h)
      · exact Or.inl h
      · exact Or.inr ((lt_div_iff₀ hpos).mpr h)
    · rintro (h | h)
      · exact Or.inl h
      · exact Or.inr ((lt_div_iff₀ hpos).mp h)
  · intro x n
    exact histVariance_replicate x n

/-- Concrete instantiation of C10: history [1, 3] (variance 1), current
reading 10, default threshold 2.5. -/
theorem C10_consumption_anomaly_spec_witness :
    0 < histVariance [1, 3] ∧
      0 ≤ zScoreSq [1, 3] 10 ∧
      (detectConsumptionAnomaly [1, 3] 10 (5/2) = true ↔
        (5/2 : ℚ) < 0 ∨ (5/2 : ℚ) ^ 2 < zScoreSq [1, 3] 10) ∧
      (∀ x : ℚ, ∀ n : Nat, histVariance (List.replicate (n + 1) x) = 0) :=
  C10_consumption_anomaly_spec [1, 3] 10 (5/2) (by simp)
    (by norm_num [histVariance, histMean])

end SmartGrid
